import Mathlib

/-!
Shallow embedding of the ILI9341 TFT LCD driver (`ili9341/lcd.py` together with the
register opcodes of `ili9341/constants.py`).

The driver talks to the display over SPI through `ILI._write`: a command transaction
(`_write_cmd`, data/command line low) or a data transaction (`_write_data`, line high).
We model the bus as a trace of transactions (`Tx`), and each drawing method as a pure
function from the mutable device state (`DeviceState`) to a new state plus the trace of
transactions it issues, in order.  `_write_words` packs its byte tuple into a single
data transaction, so a `words` write appears as one `Tx.data` with the packed bytes.

Python integers are embedded as `Int`.  All divisors appearing in the source
(`>> n`, `// 2`, `// 3`, `// portion`) are positive, and for a positive divisor
Python floor division and the always-nonnegative Python `%`/`& 0xFF` coincide with
Lean's Euclidean `Int` division and remainder, on all integers.  Python `<<` is
multiplication by a power of two, embedded as `Int` shift; Python bitwise `|` on
integers is two's-complement `Int.lor`.  Python bytes repetition `word * n` with a
negative `n` gives empty bytes, hence the `Int.toNat` on repeat counts.
-/

/-- One SPI bus transaction: a command byte (data/command line low) or a data
transaction carrying a list of payload bytes (line high). -/
inductive Tx where
  | cmd : Nat → Tx
  | data : List Int → Tx
deriving DecidableEq, Repr

/-- `constants.py`: TFT panel width in portrait frame. -/
def TFTWIDTH : Int := 240

/-- `constants.py`: TFT panel height in portrait frame. -/
def TFTHEIGHT : Int := 320

/-- `constants.py`: Column Address Set opcode. -/
def CASET : Nat := 0x2A

/-- `constants.py`: Page (row) Address Set opcode. -/
def PASET : Nat := 0x2B

/-- `constants.py`: Memory Write opcode. -/
def RAMWR : Nat := 0x2C

/-- `constants.py`: Memory Access Control opcode. -/
def MADCTL : Nat := 0x36

/-- Mutable state of an `ILI` driver object: the orientation flag `self._portrait`
and the current logical frame dimensions `self.curWidth` / `self.curHeight`. -/
structure DeviceState where
  _portrait : Bool
  curWidth : Int
  curHeight : Int
deriving Repr, DecidableEq

/-- A device state as `ILI.__init__` leaves it: default `portrait = True`,
`curWidth = TFTWIDTH = 240`, `curHeight = TFTHEIGHT = 320`. -/
def ili_default : DeviceState := { _portrait := true, curWidth := 240, curHeight := 320 }

/-- Python `(v >> 8) & 0xFF` on an arbitrary integer. -/
def highByte (v : Int) : Int := v / 256 % 256

/-- Python `v & 0xFF` on an arbitrary integer. -/
def lowByte (v : Int) : Int := v % 256

/-- `ILI._set_window(x0, y0, x1, y1)`: Column Address Set with the four bytes of
`(x0, y0)` as two big-endian 16-bit values in one `_write_words` data transaction,
then Page Address Set with `(x1, y1)`, then Memory Write.  Note the source's
parameter names are misleading: every caller passes
(column start, column end, row start, row end) positionally, so `x0, y0` are the
column window and `x1, y1` the row window. -/
def set_window (x0 y0 x1 y1 : Int) : List Tx :=
  [Tx.cmd CASET, Tx.data [highByte x0, lowByte x0, highByte y0, lowByte y0],
   Tx.cmd PASET, Tx.data [highByte x1, lowByte x1, highByte y1, lowByte y1],
   Tx.cmd RAMWR]

/-- `ILI._graph_orientation`: MADCTL with 0x48 (portrait) or 0x28 (landscape). -/
def graph_orientation (s : DeviceState) : DeviceState × List Tx :=
  (s, [Tx.cmd MADCTL, Tx.data [if s._portrait then 0x48 else 0x28]])

/-- `ILI._char_orientation`: MADCTL with 0xE8 (portrait) or 0x58 (landscape). -/
def char_orientation (s : DeviceState) : DeviceState × List Tx :=
  (s, [Tx.cmd MADCTL, Tx.data [if s._portrait then 0xE8 else 0x58]])

/-- `ILI._image_orientation`: MADCTL with 0xC8 (portrait) or 0x68 (landscape). -/
def image_orientation (s : DeviceState) : DeviceState × List Tx :=
  (s, [Tx.cmd MADCTL, Tx.data [if s._portrait then 0xC8 else 0x68]])

/-- The guard of `ILI.setDimensions` is `if ILI.portrait:` — it reads the `portrait`
attribute on the class object, which is the property descriptor itself (not the
instance flag `self._portrait`), and a property object is always truthy in Python.
The guard is therefore the constant `true`, embedded here as a named constant so the
source shape of `setDimensions` is preserved. -/
def ILI_class_portrait_truthy : Bool := true

/-- `ILI.setDimensions`: re-derive `curHeight`/`curWidth` from the (buggy, see
`ILI_class_portrait_truthy`) orientation guard, then issue `_graph_orientation`. -/
def setDimensions (s : DeviceState) : DeviceState × List Tx :=
  let s :=
    if ILI_class_portrait_truthy then
      { s with curHeight := TFTHEIGHT, curWidth := TFTWIDTH }
    else
      { s with curHeight := TFTWIDTH, curWidth := TFTHEIGHT }
  (s, (graph_orientation s).2)

/-- The `ILI.portrait` property setter: store the flag, then `setDimensions()`
(the non-boolean `PortraitBoolError` branch is unreachable for a `Bool` argument). -/
def portrait_set (s : DeviceState) (portr : Bool) : DeviceState × List Tx :=
  setDimensions { s with _portrait := portr }

/-- A color as the driver passes it around: a Python 3-tuple of integers,
already reduced to the 5/6/5-bit ranges by callers. -/
abbrev Color := Int × Int × Int

/-- Modelled from the spec: `colors.py` (imported by `lcd.py` via
`from ili9341.colors import *`) is not under `src/`.  Per the spec's data model the
components of a packed color carry 5/6/5 bits, so `WHITE` is the fully saturated
reduced tuple; its special case in `_get_Npix_monoword` then agrees with the general
`(R<<11)|(G<<5)|B` formula at this input. -/
def WHITE : Color := (31, 63, 31)

/-- Modelled from the spec: see `WHITE`.  `BLACK` is the zero tuple; its special case
in `_get_Npix_monoword` agrees with the general formula at this input. -/
def BLACK : Color := (0, 0, 0)

/-- `ILI._get_Npix_monoword(color)`: special-case `WHITE` and `BLACK`, otherwise
`word = (R<<11)|(G<<5)|B`; the result is `pack('>H', word)`, the big-endian byte
pair of the 16-bit word. -/
def get_Npix_monoword (color : Color) : List Int :=
  let word : Int :=
    if color = WHITE then 0xFFFF
    else if color = BLACK then 0
    else
      let (R, G, B) := color
      Int.lor (Int.lor (R <<< (11 : Int)) (G <<< (5 : Int))) B
  [highByte word, lowByte word]

/-- `ILI.rgbTo565(r, g, b) = (r>>3, g>>2, b>>3)`: reduce an RGB888 triple to a
RGB565 triple. -/
def rgbTo565 (r g b : Int) : Color := (r / 8, g / 4, b / 8)

/-- `BaseDraw._set_ortho_line(width, length, color)`: one data transaction of
`width * (length + 1)` repetitions of the color monoword. -/
def set_ortho_line (width length : Int) (color : Color) : List Tx :=
  [Tx.data (List.flatten (List.replicate (width * (length + 1)).toNat
    (get_Npix_monoword color)))]

/-- `BaseDraw.drawPixel(x, y, color)`: 1×1 window, one monoword. -/
def drawPixel (s : DeviceState) (x y : Int) (color : Color) : DeviceState × List Tx :=
  (s, set_window x x y y ++ [Tx.data (get_Npix_monoword color)])

/-- `BaseDraw.drawVline(x, y, length, color, width=1)`: clamp `length` to
`curHeight` and `width` to 10, arm a `width × length` window, fill it. -/
def drawVline (s : DeviceState) (x y length : Int) (color : Color) (width : Int) :
    DeviceState × List Tx :=
  let length := if length > s.curHeight then s.curHeight else length
  let width := if width > 10 then 10 else width
  (s, set_window x (x + (width - 1)) y (y + length - 1) ++ set_ortho_line width length color)

/-- `BaseDraw.drawHline(x, y, length, color, width=1)`: clamp `length` to
`curWidth` and `width` to 10, arm a `length × width` window, fill it. -/
def drawHline (s : DeviceState) (x y length : Int) (color : Color) (width : Int) :
    DeviceState × List Tx :=
  let length := if length > s.curWidth then s.curWidth else length
  let width := if width > 10 then 10 else width
  (s, set_window x (x + length - 1) y (y + (width - 1)) ++ set_ortho_line width length color)

/-- C1: the claim says assigning `portrait = false` re-derives the logical frame to
width 320, height 240.  In the code, `setDimensions` tests the always-truthy class
attribute `ILI.portrait` instead of the instance flag, so both flag values leave
width 240 and height 320 — contradicting the module docstring, which documents
landscape as 320×240.  This theorem evaluates the code at the failing input
`portrait := false` (and shows `portrait := true` accidentally behaves as claimed). -/
theorem portrait_false_does_not_swap (s : DeviceState) :
    ((portrait_set s false).1.curWidth = 240 ∧ (portrait_set s false).1.curHeight = 320) ∧
    ((portrait_set s true).1.curWidth = 240 ∧ (portrait_set s true).1.curHeight = 320) :=
  ⟨⟨rfl, rfl⟩, ⟨rfl, rfl⟩⟩

/-- C7: assigning the `portrait` flag twice in a row leaves the same logical width
and height as assigning it once, for every starting state and both flag values. -/
theorem portrait_assign_idempotent (s : DeviceState) (b : Bool) :
    (portrait_set (portrait_set s b).1 b).1.curWidth = (portrait_set s b).1.curWidth ∧
    (portrait_set (portrait_set s b).1 b).1.curHeight = (portrait_set s b).1.curHeight :=
  ⟨rfl, rfl⟩

/-- C3: for a window (x0, x1, y0, y1) — column start/end then row start/end, the
order in which every caller passes them — `_set_window` issues exactly: the
column-address-set command, the four data bytes of x0 and x1 as two big-endian
16-bit values in one data transaction, the row-address-set command with (y0, y1)
likewise, then the memory-write command, and nothing else.  The trailing conjuncts
verify the byte pairs really re-assemble big-endian to the coordinates. -/
theorem set_window_exact_sequence (x0 x1 y0 y1 : Int)
    (hx0 : 0 ≤ x0) (hx0w : x0 < 65536) (hx1 : 0 ≤ x1) (hx1w : x1 < 65536)
    (hy0 : 0 ≤ y0) (hy0w : y0 < 65536) (hy1 : 0 ≤ y1) (hy1w : y1 < 65536) :
    set_window x0 x1 y0 y1 =
      [Tx.cmd CASET, Tx.data [highByte x0, lowByte x0, highByte x1, lowByte x1],
       Tx.cmd PASET, Tx.data [highByte y0, lowByte y0, highByte y1, lowByte y1],
       Tx.cmd RAMWR] ∧
    highByte x0 * 256 + lowByte x0 = x0 ∧ highByte x1 * 256 + lowByte x1 = x1 ∧
    highByte y0 * 256 + lowByte y0 = y0 ∧ highByte y1 * 256 + lowByte y1 = y1 := by
  refine ⟨rfl, ?_, ?_, ?_, ?_⟩ <;> simp only [highByte, lowByte] <;> omega

/-- Witness for C3 at the spec's end-to-end window (0, 9, 0, 9). -/
theorem set_window_exact_sequence_witness :
    set_window 0 9 0 9 =
      [Tx.cmd CASET, Tx.data [highByte 0, lowByte 0, highByte 9, lowByte 9],
       Tx.cmd PASET, Tx.data [highByte 0, lowByte 0, highByte 9, lowByte 9],
       Tx.cmd RAMWR] ∧
    highByte 0 * 256 + lowByte 0 = 0 ∧ highByte 9 * 256 + lowByte 9 = 9 ∧
    highByte 0 * 256 + lowByte 0 = 0 ∧ highByte 9 * 256 + lowByte 9 = 9 :=
  set_window_exact_sequence 0 9 0 9 (by norm_num) (by norm_num) (by norm_num)
    (by norm_num) (by norm_num) (by norm_num) (by norm_num) (by norm_num)

/-- C9: the character and image orientation sub-modes write only the
memory-access-control register (one MADCTL command plus one mode byte) and leave the
logical frame size unchanged: `curWidth` and `curHeight` are identical before and
after the call. -/
theorem orientation_submode_keeps_frame (s : DeviceState) :
    char_orientation s = (s, [Tx.cmd MADCTL, Tx.data [if s._portrait then 0xE8 else 0x58]]) ∧
    image_orientation s = (s, [Tx.cmd MADCTL, Tx.data [if s._portrait then 0xC8 else 0x68]]) ∧
    (char_orientation s).1.curWidth = s.curWidth ∧
    (char_orientation s).1.curHeight = s.curHeight ∧
    (image_orientation s).1.curWidth = s.curWidth ∧
    (image_orientation s).1.curHeight = s.curHeight :=
  ⟨rfl, rfl, rfl, rfl, rfl, rfl⟩

/-- C8: the 8-to-5/6-bit reducer `rgbTo565` followed by `_get_Npix_monoword` packs
the known values — 0xF800, 0x07E0, 0x001F, 0xFFFF — here as their big-endian byte
pairs, exactly as the word goes onto the bus.  Both functions are pure. -/
theorem pack565_known_values :
    get_Npix_monoword (rgbTo565 255 0 0) = [0xF8, 0x00] ∧
    get_Npix_monoword (rgbTo565 0 255 0) = [0x07, 0xE0] ∧
    get_Npix_monoword (rgbTo565 0 0 255) = [0x00, 0x1F] ∧
    get_Npix_monoword (rgbTo565 255 255 255) = [0xFF, 0xFF] := by
  refine ⟨?_, ?_, ?_, ?_⟩ <;> decide

/-- `ILI._decode_spi_data(data)` on the five received bytes `b0..b4`:
`unpack('<BI', data)[1]` keeps the little-endian 32-bit value of `b1..b4`;
`pack('>I', ...)` lays it out big-endian as `(b4, b3, b2, b1)`; `unpack('>3B', ...)`
keeps the first three of those — MicroPython's `struct.unpack` ignores trailing
extra bytes — i.e. `(b4, b3, b2)`; the channel bits are then masked/shifted and the
16-bit result is returned as `pack('>H', word)`, its big-endian byte pair. -/
def decode_spi_data (b0 b1 b2 b3 b4 : Nat) : List Nat :=
  let u : Nat := b1 + b2 * 256 + b3 * 65536 + b4 * 16777216
  let c0 : Nat := u / 16777216 % 256
  let c1 : Nat := u / 65536 % 256
  let c2 : Nat := u / 256 % 256
  let red : Nat := ((c2 >>> 2) &&& 31) <<< 11
  let green : Nat := ((c1 >>> 1) &&& 63) <<< 5
  let blue : Nat := (c0 >>> 2) &&& 31
  let word : Nat := red ||| green ||| blue
  [word / 256 % 256, word % 256]

/-- The decoder as the claim words it: drop the first 2 of the 5 response bytes,
reverse the remaining 3 (`byte0 = b4`, `byte1 = b3`, `byte2 = b2`), compute
`red = (byte2>>2 & 0x1F) << 11`, `green = (byte1>>1 & 0x3F) << 5`,
`blue = byte0>>2 & 0x1F`, and return the 16-bit `red|green|blue` packed big-endian. -/
def unpackReadback (b0 b1 b2 b3 b4 : Nat) : List Nat :=
  let byte0 : Nat := b4
  let byte1 : Nat := b3
  let byte2 : Nat := b2
  let red : Nat := ((byte2 >>> 2) &&& 0x1F) <<< 11
  let green : Nat := ((byte1 >>> 1) &&& 0x3F) <<< 5
  let blue : Nat := (byte0 >>> 2) &&& 0x1F
  let word : Nat := red ||| green ||| blue
  [word / 256 % 256, word % 256]

/-- C4: for every 5-byte read-back response, `_decode_spi_data` computes exactly the
claimed bit arithmetic (drop 2, reverse 3, mask/shift channels, pack big-endian);
being a pure function, equal inputs trivially yield equal outputs. -/
theorem decode_spi_data_matches_claim (b0 b1 b2 b3 b4 : Nat)
    (h0 : b0 < 256) (h1 : b1 < 256) (h2 : b2 < 256) (h3 : b3 < 256) (h4 : b4 < 256) :
    decode_spi_data b0 b1 b2 b3 b4 = unpackReadback b0 b1 b2 b3 b4 := by
  simp only [decode_spi_data, unpackReadback]
  have e2 : (b1 + b2 * 256 + b3 * 65536 + b4 * 16777216) / 256 % 256 = b2 := by omega
  have e3 : (b1 + b2 * 256 + b3 * 65536 + b4 * 16777216) / 65536 % 256 = b3 := by omega
  have e4 : (b1 + b2 * 256 + b3 * 65536 + b4 * 16777216) / 16777216 % 256 = b4 := by omega
  rw [e2, e3, e4]

/-- Witness for C4 at a concrete 5-byte response. -/
theorem decode_spi_data_matches_claim_witness :
    decode_spi_data 9 8 250 130 77 = unpackReadback 9 8 250 130 77 :=
  decode_spi_data_matches_claim 9 8 250 130 77 (by norm_num) (by norm_num)
    (by norm_num) (by norm_num) (by norm_num)

/-- The source clamps `if a > b: a = b`, i.e. `min`. -/
theorem clamp_eq_min (a b : Int) : (if a > b then b else a) = min a b := by
  rcases le_or_lt a b with h | h
  · rw [if_neg (not_lt.mpr h), min_eq_left h]
  · rw [if_pos h, min_eq_right h.le]

/-- C6: `drawVline` clamps the requested length to `curHeight` (and `drawHline` to
`curWidth`), width is clamped to at most 10, and the armed window spans exactly
(clamped) width × (clamped) length pixels; in particular a length greater than the
device dimension yields a window exactly device-dimension tall (resp. wide). -/
theorem hv_line_clamps (s : DeviceState) (x y len w : Int) (c : Color) :
    ((drawVline s x y len c w).2 =
        set_window x (x + (min w 10 - 1)) y (y + min len s.curHeight - 1) ++
          set_ortho_line (min w 10) (min len s.curHeight) c ∧
      (x + (min w 10 - 1)) - x + 1 = min w 10 ∧
      (y + min len s.curHeight - 1) - y + 1 = min len s.curHeight ∧
      min w 10 ≤ 10 ∧
      ((x + (min w 10 - 1)) - x + 1) * ((y + min len s.curHeight - 1) - y + 1) =
        min w 10 * min len s.curHeight ∧
      (len > s.curHeight → (y + min len s.curHeight - 1) - y + 1 = s.curHeight)) ∧
    ((drawHline s x y len c w).2 =
        set_window x (x + min len s.curWidth - 1) y (y + (min w 10 - 1)) ++
          set_ortho_line (min w 10) (min len s.curWidth) c ∧
      (x + min len s.curWidth - 1) - x + 1 = min len s.curWidth ∧
      (y + (min w 10 - 1)) - y + 1 = min w 10 ∧
      min w 10 ≤ 10 ∧
      ((x + min len s.curWidth - 1) - x + 1) * ((y + (min w 10 - 1)) - y + 1) =
        min len s.curWidth * min w 10 ∧
      (len > s.curWidth → (x + min len s.curWidth - 1) - x + 1 = s.curWidth)) := by
  constructor
  · refine ⟨?_, by ring, by ring, min_le_right w 10, by ring, ?_⟩
    · simp only [drawVline, clamp_eq_min]
    · intro h; rw [min_eq_right h.le]; ring
  · refine ⟨?_, by ring, by ring, min_le_right w 10, by ring, ?_⟩
    · simp only [drawHline, clamp_eq_min]
    · intro h; rw [min_eq_right h.le]; ring

/-- Witness for C6: a vertical line of requested length 400 on the default 240×320
frame arms a window exactly 320 rows tall. -/
theorem hv_line_clamps_witness :
    (drawVline ili_default 1 2 400 (0, 0, 31) 50).2 =
        set_window 1 (1 + (min 50 10 - 1)) 2 (2 + min 400 ili_default.curHeight - 1) ++
          set_ortho_line (min 50 10) (min 400 ili_default.curHeight) (0, 0, 31) ∧
    (2 + min 400 ili_default.curHeight - 1) - 2 + 1 = ili_default.curHeight :=
  ⟨(hv_line_clamps ili_default 1 2 400 50 (0, 0, 31)).1.1,
   (hv_line_clamps ili_default 1 2 400 50 (0, 0, 31)).1.2.2.2.2.2 (by decide)⟩

/-- `drawRect`'s infill chunking constant `portion = 32`. -/
def rectPortion : Int := 32

/-- `drawRect` infill pixel count per chunk: `width * (height // portion + 1)` when
`height >= portion`, else `(width * height) // 3 + 1`. -/
def rectPixels (width height : Int) : Int :=
  if height ≥ rectPortion then width * (height / rectPortion + 1)
  else width * height / 3 + 1

/-- `drawRect` infill chunk count: `16 * 2` when `height < portion + 1`,
else `portion + 1`. -/
def rectTimes (height : Int) : Int :=
  if height < rectPortion + 1 then 16 * 2 else rectPortion + 1

/-- `BaseDraw.drawRect(x, y, width, height, color, border, infill)`.
`border=None` is normalized to 0 and clamped to ≤ 10; width/height are clamped to
the device frame and raised to ≥ 2; `_graph_orientation` is issued.  With
`border > 0` the border is further clamped below half the width (the source mutates
`border` in place, so the reassigned value also feeds the infill offsets) and two
horizontal plus two vertical bands are drawn (the two-iteration loop is unrolled
here); with `border = 0` the source replaces `infill` by `color`.  If an infill
color results, a window inset by the final border is armed and `times` data
transactions of `pixels` monowords each are written. -/
def drawRect (s : DeviceState) (x y width height : Int) (color : Color)
    (border : Option Int) (infill : Option Color) : DeviceState × List Tx :=
  let border0 : Int := match border with | none => 0 | some b => b
  let border1 := if border0 > 10 then 10 else border0
  let width := if width > s.curWidth then s.curWidth else width
  let height := if height > s.curHeight then s.curHeight else height
  let height := if height < 2 then 2 else height
  let width := if width < 2 then 2 else width
  let t0 := (graph_orientation s).2
  let border2 := if border1 > width / 2 then width / 2 - 1 else border1
  let tb : List Tx :=
    if border1 > 0 then
      let Y := if border2 > 1 then y + 1 else y
      let H := if border2 > 1 then height else height + 1
      (drawHline s x y width color border2).2 ++
        (drawVline s x Y H color border2).2 ++
        (drawHline s x (y + height - (border2 - 1)) width color border2).2 ++
        (drawVline s (x + width - (border2 - 1)) Y H color border2).2
    else []
  let borderF := if border1 > 0 then border2 else border1
  let infill := if border1 > 0 then infill else some color
  let ti : List Tx :=
    match infill with
    | none => []
    | some ic =>
      let xsum := x + borderF
      let ysum := y + borderF
      let dborder := borderF * 2
      set_window xsum (xsum + width - dborder) ysum (ysum + height - dborder) ++
        List.replicate (rectTimes height).toNat
          (Tx.data (List.flatten (List.replicate (rectPixels width height).toNat
            (get_Npix_monoword ic))))
  (s, t0 ++ tb ++ ti)

/-- `BaseDraw.fillMonocolor(color, margin=0)`: clamp margin to 80, fill the
margin-inset frame via `drawRect` with `border=0`. -/
def fillMonocolor (s : DeviceState) (color : Color) (margin : Int) :
    DeviceState × List Tx :=
  let margin := if margin > 80 then 80 else margin
  drawRect s margin margin (s.curWidth - margin * 2) (s.curHeight - margin * 2) color
    (some 0) none

/-- Payload byte count of one transaction: data bytes count, commands count 0. -/
def dataLen : Tx → Nat
  | Tx.cmd _ => 0
  | Tx.data bs => bs.length

/-- Total pixel-data bytes written after the window was last armed: the data bytes
of the longest trace suffix containing no Memory Write command. -/
def pixelBytesAfterArm (tr : List Tx) : Nat :=
  ((tr.reverse.takeWhile fun t => t != Tx.cmd RAMWR).map dataLen).sum

/-- `takeWhile` keeps a RAMWR-free prefix and stops at the Memory Write command. -/
theorem takeWhile_all_append (l1 l2 : List Tx)
    (h : ∀ a ∈ l1, (a != Tx.cmd RAMWR) = true) :
    ((l1 ++ Tx.cmd RAMWR :: l2).takeWhile fun t => t != Tx.cmd RAMWR) = l1 := by
  induction l1 with
  | nil => simp [List.takeWhile_cons]
  | cons a tl ih =>
    have ha := h a (List.mem_cons_self a tl)
    rw [List.cons_append, List.takeWhile_cons, ha]
    simp only [if_true]
    rw [ih fun b hb => h b (List.mem_cons_of_mem a hb)]

/-- Pixel bytes after the arming Memory Write of a trace ending in RAMWR-free
transactions. -/
theorem pixelBytesAfterArm_append (pre suf : List Tx)
    (h : ∀ a ∈ suf, (a != Tx.cmd RAMWR) = true) :
    pixelBytesAfterArm (pre ++ Tx.cmd RAMWR :: suf) = ((suf.map dataLen).sum) := by
  unfold pixelBytesAfterArm
  rw [show (pre ++ Tx.cmd RAMWR :: suf).reverse =
      suf.reverse ++ Tx.cmd RAMWR :: pre.reverse by simp]
  rw [takeWhile_all_append _ _ fun a ha => h a (List.mem_reverse.mp ha)]
  rw [List.map_reverse, List.sum_reverse]

/-- Every color monoword is two bytes. -/
theorem get_Npix_monoword_length (c : Color) : (get_Npix_monoword c).length = 2 := rfl

/-- The trace of `drawRect` with `border = 0`: orientation write, window arming at
the uninset rectangle, then the chunked infill writes. -/
theorem drawRect_border0_trace (s : DeviceState) (x y w h : Int) (c : Color)
    (hw2 : 2 ≤ w) (hwW : w ≤ s.curWidth) (hh2 : 2 ≤ h) (hhH : h ≤ s.curHeight) :
    (drawRect s x y w h c (some 0) none).2 =
      (graph_orientation s).2 ++
        (set_window (x + 0) (x + 0 + w - 0 * 2) (y + 0) (y + 0 + h - 0 * 2) ++
          List.replicate (rectTimes h).toNat
            (Tx.data (List.flatten (List.replicate (rectPixels w h).toNat
              (get_Npix_monoword c))))) := by
  simp only [drawRect]
  rw [if_neg (by omega : ¬ (0 : Int) > 10), if_neg (not_lt.mpr hwW),
    if_neg (not_lt.mpr hhH), if_neg (not_lt.mpr hh2), if_neg (not_lt.mpr hw2),
    if_neg (by omega : ¬ (0 : Int) > 0), if_neg (by omega : ¬ (0 : Int) > 0)]
  simp

/-- The chunk count is positive and the per-chunk pixel count nonnegative. -/
theorem rectTimes_nonneg (h : Int) : 0 ≤ rectTimes h := by
  unfold rectTimes rectPortion
  split_ifs <;> norm_num

/-- Per-chunk pixel count is nonnegative for a rectangle of dimensions ≥ 2. -/
theorem rectPixels_nonneg (w h : Int) (hw : 2 ≤ w) (hh : 2 ≤ h) :
    0 ≤ rectPixels w h := by
  unfold rectPixels rectPortion
  have hwh : 0 ≤ w * h := mul_nonneg (by omega) (by omega)
  split_ifs with hcase
  · have : 0 ≤ h / 32 := Int.ediv_nonneg (by omega) (by norm_num)
    exact mul_nonneg (by omega) (by omega)
  · omega

/-- C2 (amended): for a `border = 0` solid fill of a `w × h` rectangle within the
device frame, the pixel-data bytes written after the window is armed equal
`2 * pixels * times` with the source's fixed chunking (`pixels`/`times` as in
`rectPixels`/`rectTimes`) — always at least `2*w*h`, but not equal to it in
general. -/
theorem fill_bytes_after_arm (s : DeviceState) (x y w h : Int) (c : Color)
    (hw2 : 2 ≤ w) (hwW : w ≤ s.curWidth) (hh2 : 2 ≤ h) (hhH : h ≤ s.curHeight) :
    (pixelBytesAfterArm (drawRect s x y w h c (some 0) none).2 : Int) =
      2 * rectPixels w h * rectTimes h ∧
    2 * w * h ≤ 2 * rectPixels w h * rectTimes h := by
  have htrace := drawRect_border0_trace s x y w h c hw2 hwW hh2 hhH
  have hcount : pixelBytesAfterArm (drawRect s x y w h c (some 0) none).2 =
      (rectTimes h).toNat * ((rectPixels w h).toNat * 2) := by
    rw [htrace]
    rw [show (graph_orientation s).2 ++
        (set_window (x + 0) (x + 0 + w - 0 * 2) (y + 0) (y + 0 + h - 0 * 2) ++
          List.replicate (rectTimes h).toNat
            (Tx.data (List.flatten (List.replicate (rectPixels w h).toNat
              (get_Npix_monoword c))))) =
        ((graph_orientation s).2 ++
          [Tx.cmd CASET,
           Tx.data [highByte (x + 0), lowByte (x + 0),
             highByte (x + 0 + w - 0 * 2), lowByte (x + 0 + w - 0 * 2)],
           Tx.cmd PASET,
           Tx.data [highByte (y + 0), lowByte (y + 0),
             highByte (y + 0 + h - 0 * 2), lowByte (y + 0 + h - 0 * 2)]]) ++
          Tx.cmd RAMWR ::
            List.replicate (rectTimes h).toNat
              (Tx.data (List.flatten (List.replicate (rectPixels w h).toNat
                (get_Npix_monoword c)))) by simp [set_window]]
    rw [pixelBytesAfterArm_append]
    · rw [List.map_replicate, List.sum_replicate, smul_eq_mul]
      have : dataLen (Tx.data (List.flatten (List.replicate (rectPixels w h).toNat
          (get_Npix_monoword c)))) = (rectPixels w h).toNat * 2 := by
        simp [dataLen, List.length_flatten, List.map_replicate, List.sum_replicate,
          get_Npix_monoword_length]
      rw [this]
    · intro a ha
      rw [List.eq_of_mem_replicate ha]
      rfl
  have hpn := rectPixels_nonneg w h hw2 hh2
  have htn := rectTimes_nonneg h
  constructor
  · rw [hcount]
    push_cast [Int.toNat_of_nonneg hpn, Int.toNat_of_nonneg htn]
    ring
  · unfold rectPixels rectTimes rectPortion
    have hwh : 0 ≤ w * h := mul_nonneg (by omega) (by omega)
    rcases lt_or_le h 32 with hc | hc
    · rw [if_neg (by omega), if_pos (by omega)]
      have hk : 2 * w * h = 2 * (w * h) := by ring
      rw [hk]
      omega
    · rcases lt_or_le h 33 with hd | hd
      · have he : h = 32 := by omega
        subst he
        rw [if_pos (by norm_num), if_pos (by norm_num)]
        norm_num
        omega
      · rw [if_pos (by omega), if_neg (by omega)]
        have key : h ≤ 33 * (h / 32 + 1) := by omega
        have hw0 : (0 : Int) ≤ 2 * w := by omega
        have hmul := mul_le_mul_of_nonneg_left key hw0
        linarith [hmul]

/-- C2 counterexample: a solid `border = 0` fill of a 10×10 rectangle on the default
frame writes 2176 pixel-data bytes after the window is armed — not
`2 * 10 * 10 = 200` as claimed; the chunk layout (32 chunks of 34 pixels) overshoots
the window. -/
theorem fill_bytes_counterexample :
    pixelBytesAfterArm (drawRect ili_default 0 0 10 10 (0, 0, 31) (some 0) none).2 = 2176 ∧
    pixelBytesAfterArm (drawRect ili_default 0 0 10 10 (0, 0, 31) (some 0) none).2 ≠
      2 * 10 * 10 := by
  refine ⟨?_, ?_⟩ <;> decide

/-- Witness for C2 (amended) at the same concrete rectangle. -/
theorem fill_bytes_after_arm_witness :
    (pixelBytesAfterArm (drawRect ili_default 3 4 10 10 (0, 0, 31) (some 0) none).2 : Int) =
      2 * rectPixels 10 10 * rectTimes 10 ∧
    2 * 10 * 10 ≤ 2 * rectPixels 10 10 * rectTimes 10 :=
  fill_bytes_after_arm ili_default 3 4 10 10 (0, 0, 31) (by norm_num) (by decide)
    (by norm_num) (by decide)

/-- `BaseDraw.drawLine(x, y, x1, y1, color)`: the degenerate branches delegate to
`drawVline`/`drawHline` with the lower endpoint and the absolute span (default
`width = 1`).  The general sloped branch performs float ratio arithmetic
(`r = (y1-y)/(x1-x)` with `trunc` stepping); floats are outside this embedding,
which covers the two integer branches, so that branch is `none`. -/
def drawLine (s : DeviceState) (x y x1 y1 : Int) (color : Color) :
    Option (DeviceState × List Tx) :=
  if x = x1 then some (drawVline s x (if y ≤ y1 then y else y1) |y1 - y| color 1)
  else if y = y1 then some (drawHline s (if x ≤ x1 then x else x1) y |x - x1| color 1)
  else none

set_option maxRecDepth 4000 in
/-- C10 counterexample: `drawLine(0, 400, 0, 0)` on the default frame arms rows
0..319: the vertical run covers 320 pixels, not `|y1 - y| = 400` as claimed, and
the endpoint farther from the start — row 0 — lies INSIDE the armed rows (it is the
start row 400 that is left out, contradicting the claimed direction as well). -/
theorem drawLine_span_counterexample :
    drawLine ili_default 0 400 0 0 (0, 0, 31) =
      some (ili_default, set_window 0 0 0 319 ++ set_ortho_line 1 320 (0, 0, 31)) ∧
    (319 - 0 + 1 : Int) ≠ 400 ∧ ((0 : Int) ≤ 0 ∧ (0 : Int) ≤ 319) := by
  refine ⟨by decide, by norm_num, by norm_num⟩


/-- C10 (amended): for `x = x1`, `y ≠ y1`, when the span `|y1 - y|` does not exceed
the device height, the drawn vertical run starts at `min y y1` and covers exactly
`|y1 - y|` rows — one fewer than the inclusive endpoint span — and the undrawn
endpoint is the one with the LARGER coordinate, `max y y1` (the endpoint farther
from the start only when `y < y1`; for `y > y1` it is the start itself that is
skipped); symmetrically for `y = y1`, `x ≠ x1` the horizontal run starts at
`min x x1` and covers exactly `|x - x1|` columns. -/
theorem drawLine_degenerate_span (s : DeviceState) (x y x1 y1 : Int) (c : Color) :
    (x = x1 → y ≠ y1 → |y1 - y| ≤ s.curHeight →
      drawLine s x y x1 y1 c =
        some (s, set_window x x (min y y1) (min y y1 + |y1 - y| - 1) ++
          set_ortho_line 1 |y1 - y| c) ∧
      (min y y1 + |y1 - y| - 1) - min y y1 + 1 = |y1 - y| ∧
      max y y1 > min y y1 + |y1 - y| - 1) ∧
    (y = y1 → x ≠ x1 → |x - x1| ≤ s.curWidth →
      drawLine s x y x1 y1 c =
        some (s, set_window (min x x1) (min x x1 + |x - x1| - 1) y y ++
          set_ortho_line 1 |x - x1| c) ∧
      (min x x1 + |x - x1| - 1) - min x x1 + 1 = |x - x1| ∧
      max x x1 > min x x1 + |x - x1| - 1) := by
  constructor
  · intro hx hne hbound
    refine ⟨?_, by ring, ?_⟩
    · rcases le_or_lt y y1 with hle | hlt
      · have habs : |y1 - y| = y1 - y := abs_of_nonneg (by omega)
        have hmin : min y y1 = y := min_eq_left hle
        simp only [drawLine, if_pos hx, drawVline, if_pos hle, habs, hmin]
        rw [if_neg (by rw [habs] at hbound; omega : ¬ (y1 - y) > s.curHeight),
          if_neg (by norm_num : ¬ (1 : Int) > 10)]
        norm_num
      · have habs : |y1 - y| = y - y1 := by rw [abs_of_nonpos (by omega)]; ring
        have hmin : min y y1 = y1 := min_eq_right hlt.le
        simp only [drawLine, if_pos hx, drawVline, if_neg (not_le.mpr hlt), habs, hmin]
        rw [if_neg (by rw [habs] at hbound; omega : ¬ (y - y1) > s.curHeight),
          if_neg (by norm_num : ¬ (1 : Int) > 10)]
        norm_num
    · rcases le_or_lt y y1 with hle | hlt
      · rw [abs_of_nonneg (by omega : (0:Int) ≤ y1 - y), min_eq_left hle,
          max_eq_right hle]
        omega
      · rw [show |y1 - y| = y - y1 by rw [abs_of_nonpos (by omega)]; ring,
          min_eq_right hlt.le, max_eq_left hlt.le]
        omega
  · intro hy hne hbound
    refine ⟨?_, by ring, ?_⟩
    · rcases le_or_lt x x1 with hle | hlt
      · have habs : |x - x1| = x1 - x := by rw [abs_of_nonpos (by omega)]; ring
        have hmin : min x x1 = x := min_eq_left hle
        simp only [drawLine, if_neg hne, if_pos hy, drawHline, if_pos hle, habs, hmin]
        rw [if_neg (by rw [habs] at hbound; omega : ¬ (x1 - x) > s.curWidth),
          if_neg (by norm_num : ¬ (1 : Int) > 10)]
        norm_num
      · have habs : |x - x1| = x - x1 := abs_of_nonneg (by omega)
        have hmin : min x x1 = x1 := min_eq_right hlt.le
        simp only [drawLine, if_neg hne, if_pos hy, drawHline, if_neg (not_le.mpr hlt),
          habs, hmin]
        rw [if_neg (by rw [habs] at hbound; omega : ¬ (x - x1) > s.curWidth),
          if_neg (by norm_num : ¬ (1 : Int) > 10)]
        norm_num
    · rcases le_or_lt x x1 with hle | hlt
      · rw [show |x - x1| = x1 - x by rw [abs_of_nonpos (by omega)]; ring,
          min_eq_left hle, max_eq_right hle]
        omega
      · rw [abs_of_nonneg (by omega : (0:Int) ≤ x - x1), min_eq_right hlt.le,
          max_eq_left hlt.le]
        omega

/-- Witness for C10 (amended): both degenerate branches at concrete endpoints. -/
theorem drawLine_degenerate_span_witness :
    (drawLine ili_default 0 0 0 5 (0, 0, 31) =
        some (ili_default, set_window 0 0 (min 0 5) (min 0 5 + |(5 : Int) - 0| - 1) ++
          set_ortho_line 1 |(5 : Int) - 0| (0, 0, 31)) ∧
      (min 0 5 + |(5 : Int) - 0| - 1) - min 0 5 + 1 = |(5 : Int) - 0| ∧
      max (0 : Int) 5 > min 0 5 + |(5 : Int) - 0| - 1) ∧
    (drawLine ili_default 0 7 4 7 (0, 0, 31) =
        some (ili_default, set_window (min 0 4) (min 0 4 + |(0 : Int) - 4| - 1) 7 7 ++
          set_ortho_line 1 |(0 : Int) - 4| (0, 0, 31)) ∧
      (min 0 4 + |(0 : Int) - 4| - 1) - min 0 4 + 1 = |(0 : Int) - 4| ∧
      max (0 : Int) 4 > min 0 4 + |(0 : Int) - 4| - 1) :=
  ⟨(drawLine_degenerate_span ili_default 0 0 0 5 (0, 0, 31)).1 rfl (by norm_num)
      (by decide),
   (drawLine_degenerate_span ili_default 0 7 4 7 (0, 0, 31)).2 rfl (by norm_num)
      (by decide)⟩

/-- Split a byte stream into successive `f.read(n)` chunks.  The source loops until
the read raises `OSError`; a MicroPython stream read returns empty bytes at
end-of-file, embedded here as termination at end of data. -/
def chunks (n : Nat) (l : List Int) : List (List Int) :=
  if h : l = [] ∨ n = 0 then []
  else l.take n :: chunks n (l.drop n)
termination_by l.length
decreasing_by
  simp only [List.length_drop]
  have hl : l ≠ [] := fun he => h (Or.inl he)
  have hn : n ≠ 0 := fun he => h (Or.inr he)
  have hpos : 0 < l.length := List.length_pos.mpr hl
  omega

/-- `BaseImages._reverse(data, len)` (the Thumb assembly helper): swap each
adjacent byte pair; a trailing odd byte is left untouched. -/
def reversePairs : List Int → List Int
  | a :: b :: rest => b :: a :: reversePairs rest
  | l => l

/-- `f.seek(pos)` then `unpack('<H', f.read(2))[0]`: a 16-bit little-endian value
at byte offset `pos`. -/
def readLE16 (file : List Int) (pos : Nat) : Int :=
  file.getD pos 0 + file.getD (pos + 1) 0 * 256

/-- `BaseImages._set_image_headers(f)`: require the 2-byte magic `b'BM'`
(0x42 0x4D) at the file start, else raise `BMPvalidationError`; then read
`startbit`, `width`, `height` at offsets 10, 18, 22 as little-endian 16-bit. -/
def set_image_headers (file : List Int) : Except Unit (Int × Int × Int) :=
  if file.take 2 ≠ [0x42, 0x4D] then Except.error ()
  else Except.ok (readLE16 file 10, readLE16 file 18, readLE16 file 22)

/-- `BaseImages._get_image_points(pos, width, height)`: explicit position, or
centered against the current frame. -/
def get_image_points (s : DeviceState) (pos : Option (Int × Int))
    (width height : Int) : Int × Int :=
  match pos with
  | some (x, y) => (x, y)
  | none =>
      (if width = s.curWidth then 0 else (s.curWidth - width) / 2,
       if height = s.curHeight then 0 else (s.curHeight - height) / 2)

/-- `BaseImages._render_bmp_image(filename, pos)`: parse/validate the headers —
propagating `BMPvalidationError` with no transaction issued — then adjust the
width, arm the window, and stream the `f.read(512)` chunks from `startbit` with
each byte pair reversed. -/
def render_bmp_image (s : DeviceState) (file : List Int)
    (pos : Option (Int × Int)) : Except Unit (List Tx) :=
  match set_image_headers file with
  | Except.error e => Except.error e
  | Except.ok (startbit, w0, h0) =>
      let width := if w0 < s.curWidth then w0 - 1 else w0
      let height := h0
      let (x, y) := get_image_points s pos width height
      Except.ok (set_window x (width + x) y (height + y) ++
        (chunks 512 (file.drop startbit.toNat)).map fun ck => Tx.data (reversePairs ck))

/-- `f.readline()`: the bytes up to and including the first newline (0x0A), plus
the remainder of the stream. -/
def readLine1 : List Int → List Int × List Int
  | [] => ([], [])
  | a :: rest =>
      if a = 10 then ([10], rest)
      else
        let (ln, r) := readLine1 rest
        (a :: ln, r)

/-- `unpack('H', line)[0]` on a cache header line (MicroPython ignores trailing
extra bytes such as the newline). -/
def unpackH (bs : List Int) : Int := bs.getD 0 0 + bs.getD 1 0 * 256

/-- `BaseImages._render_bmp_cache(filename, pos)`: read width and height from the
two header lines, arm the window, then stream raw `f.read(1024*6)` chunks from
byte offset 8 (`startbit = 8`), without byte reversal. -/
def render_bmp_cache (s : DeviceState) (cache : List Int)
    (pos : Option (Int × Int)) : List Tx :=
  let (l1, r1) := readLine1 cache
  let (l2, _) := readLine1 r1
  let w0 := unpackH l1
  let height := unpackH l2
  let width := if w0 < s.curWidth then w0 - 1 else w0
  let (x, y) := get_image_points s pos width height
  set_window x (width + x) y (height + y) ++ (chunks 6144 (cache.drop 8)).map Tx.data

/-- `BaseImages.renderBmp(filename, pos=None, cached=True, bgcolor=None)`: force
portrait via the `portrait` setter (a MADCTL write), optionally fill the
background, select the image orientation (a second MADCTL write), then render from
the source bitmap when `cached` is false or no cache record exists
(`fileIsCached` embeds the `os.listdir(imgcachepath)` membership test), else from
the cache record; on success restore the graphics orientation.  The boolean result
records whether `BMPvalidationError` was raised; the trace contains exactly the
transactions issued before the raise. -/
def renderBmp (s : DeviceState) (file : List Int) (pos : Option (Int × Int))
    (cached : Bool) (bgcolor : Option Color) (fileIsCached : Bool)
    (cache : List Int) : DeviceState × List Tx × Bool :=
  let (s1, t1) := portrait_set s true
  let t2 := match bgcolor with
    | some c => (fillMonocolor s1 c 0).2
    | none => []
  let t3 := (image_orientation s1).2
  let notcached := !fileIsCached
  if !cached || notcached then
    match render_bmp_image s1 file pos with
    | Except.error _ => (s1, t1 ++ t2 ++ t3, true)
    | Except.ok t4 => (s1, t1 ++ t2 ++ t3 ++ t4 ++ (graph_orientation s1).2, false)
  else
    (s1, t1 ++ t2 ++ t3 ++ render_bmp_cache s1 cache pos ++ (graph_orientation s1).2,
      false)

/-- C5 counterexample: rendering a non-cached file that does not start with `b'BM'`
does raise `BMPvalidationError`, but two MADCTL orientation transactions have
already been issued by `renderBmp` before the header check — the claimed absence
of any bus transaction before the error is false. -/
theorem renderBmp_bus_before_error :
    (renderBmp ili_default [0x58, 0x58] none true none false []).2.2 = true ∧
    (renderBmp ili_default [0x58, 0x58] none true none false []).2.1 =
      [Tx.cmd MADCTL, Tx.data [0x48], Tx.cmd MADCTL, Tx.data [0xC8]] ∧
    (renderBmp ili_default [0x58, 0x58] none true none false []).2.1 ≠ [] := by
  refine ⟨by decide, by decide, by decide⟩

/-- C5 (amended): for every non-cached input file whose first two bytes are not
`b'BM'`, rendered without a background fill, `renderBmp` raises
`BMPvalidationError`, and the transactions issued before the raise are exactly the
two MADCTL orientation writes (forced portrait, then image orientation) — in
particular no window-addressing or pixel-data transaction is issued for the
bitmap. -/
theorem renderBmp_invalid_magic (s : DeviceState) (file : List Int)
    (pos : Option (Int × Int)) (cached : Bool) (cache : List Int)
    (hmagic : file.take 2 ≠ [0x42, 0x4D]) :
    (renderBmp s file pos cached none false cache).2.2 = true ∧
    (renderBmp s file pos cached none false cache).2.1 =
      [Tx.cmd MADCTL, Tx.data [0x48], Tx.cmd MADCTL, Tx.data [0xC8]] := by
  unfold renderBmp
  simp only [Bool.not_false, Bool.or_true, if_true]
  unfold render_bmp_image set_image_headers
  rw [if_pos hmagic]
  simp [portrait_set, setDimensions, graph_orientation, image_orientation,
    ILI_class_portrait_truthy]

/-- Witness for C5 (amended) at a concrete invalid file. -/
theorem renderBmp_invalid_magic_witness :
    (renderBmp ili_default [0, 1, 2] none true none false []).2.2 = true ∧
    (renderBmp ili_default [0, 1, 2] none true none false []).2.1 =
      [Tx.cmd MADCTL, Tx.data [0x48], Tx.cmd MADCTL, Tx.data [0xC8]] :=
  renderBmp_invalid_magic ili_default [0, 1, 2] none true [] (by decide)
